import Mathlib

/-!
Verification of core components of the web-jave raster-to-character editor.

Each definition below is a shallow embedding of the corresponding
TypeScript source (file and symbol named in its doc comment).  JS numbers
are modelled as `Int` (all the embedded code paths stay in the integer
range where float arithmetic is exact; the ellipse decision variables,
which the source keeps as quarter-integers, are carried multiplied by 4 so
that everything stays in `Int`).  Mutable class state is passed
explicitly; `Map` becomes an association list; timers/callbacks become
explicit events on a state record.
-/

namespace WebJave

/-! ## UndoBuffer (src/unnamed/part_002, class UndoBuffer)

The element type is abstract: the claims about the buffer only concern its
stack/cursor discipline, not the snapshot payload (whose deep-copying in
`cloneState`/`createState` is the identity on immutable Lean values). -/

structure UndoBuffer (α : Type) where
  stack : List α
  index : Int
  maxSize : Nat
deriving DecidableEq, Repr

/-- Fresh buffer: `stack = []`, `index = -1` (the App constructs it with
`new UndoBuffer(50)`). -/
def UndoBuffer.empty (α : Type) (maxSize : Nat) : UndoBuffer α :=
  ⟨[], -1, maxSize⟩

/-- `UndoBuffer.push`: drop the redo branch (`slice(0, index+1)`), append,
move the cursor to the end, then trim (`shift()` plus `index--`) when the
stack exceeds `maxSize`. -/
def UndoBuffer.push {α : Type} (b : UndoBuffer α) (state : α) : UndoBuffer α :=
  let stack0 := if b.index < (b.stack.length : Int) - 1
    then b.stack.take (b.index + 1).toNat
    else b.stack
  let stack1 := stack0 ++ [state]
  let index1 : Int := (stack1.length : Int) - 1
  if stack1.length > b.maxSize then
    ⟨stack1.drop 1, index1 - 1, b.maxSize⟩
  else
    ⟨stack1, index1, b.maxSize⟩

/-- `UndoBuffer.undo`: no-op returning `null` at the boundary
(`index ≤ 0`), otherwise decrement the cursor and return (a clone of) the
state now under it. -/
def UndoBuffer.undo {α : Type} (b : UndoBuffer α) : Option α × UndoBuffer α :=
  if 0 < b.index then
    ((b.stack.get? (b.index - 1).toNat), ⟨b.stack, b.index - 1, b.maxSize⟩)
  else
    (none, b)

/-- `UndoBuffer.redo`: no-op returning `null` at the boundary
(`index ≥ length - 1`), otherwise increment the cursor and return (a clone
of) the state now under it. -/
def UndoBuffer.redo {α : Type} (b : UndoBuffer α) : Option α × UndoBuffer α :=
  if b.index < (b.stack.length : Int) - 1 then
    ((b.stack.get? (b.index + 1).toNat), ⟨b.stack, b.index + 1, b.maxSize⟩)
  else
    (none, b)

/-- Sequence of pushes (used to state the capacity claim). -/
def UndoBuffer.pushAll {α : Type} (b : UndoBuffer α) (xs : List α) : UndoBuffer α :=
  xs.foldl UndoBuffer.push b

/-! ## Document (src/unnamed/part_001, class Document)

The text layer is a `Map<string, TextCell>` keyed by
`cellKey(col,row) = "col,row"` (src/src/types.ts); `cellKey` is injective
on integer pairs, so the key is modelled as the pair itself and the map as
an association list.  Only the fields the claims touch are carried. -/

structure GlyphCell where
  char : String
  flipX : Bool
  flipY : Bool
deriving DecidableEq, Repr

structure TextCell where
  char : String
deriving DecidableEq, Repr

structure FinalChar where
  char : String
  flipX : Bool
  flipY : Bool
  isText : Bool
deriving DecidableEq, Repr

structure Document where
  cols : Int
  rows : Int
  tileWidth : Int
  tileHeight : Int
  glyphLayer : List (List GlyphCell)
  textLayer : List ((Int × Int) × TextCell)
  cursor : Option (Int × Int × Bool)
deriving DecidableEq, Repr

/-- `Document.getTextCell`: `this._textLayer.get(cellKey(col, row)) ?? null`. -/
def Document.getTextCell (d : Document) (col row : Int) : Option TextCell :=
  d.textLayer.lookup (col, row)

/-- `Document.getGlyph`: `null` out of config bounds, otherwise
`_glyphLayer[row]![col]!` (raw indexing, `none` if the layer is ragged). -/
def Document.getGlyph (d : Document) (col row : Int) : Option GlyphCell :=
  if row < 0 ∨ d.rows ≤ row ∨ col < 0 ∨ d.cols ≤ col then
    none
  else
    (d.glyphLayer.get? row.toNat).bind fun r => r.get? col.toNat

/-- `Document.getFinalChar`: text layer first (flips dropped), then glyph
layer (flips kept), then blank. -/
def Document.getFinalChar (d : Document) (col row : Int) : FinalChar :=
  match d.getTextCell col row with
  | some t => ⟨t.char, false, false, true⟩
  | none =>
    match d.getGlyph col row with
    | some g => ⟨g.char, g.flipX, g.flipY, false⟩
    | none => ⟨" ", false, false, false⟩

/-- `Document.setCursor`: sets the cursor only when `(col,row)` is inside
the config bounds; otherwise the statement body is skipped entirely. -/
def Document.setCursor (d : Document) (col row : Int) (snappedToCenter : Bool) : Document :=
  if 0 ≤ col ∧ col < d.cols ∧ 0 ≤ row ∧ row < d.rows then
    { d with cursor := some (col, row, snappedToCenter) }
  else
    d

/-- `Document.pixelToCell`: `Math.floor` of the pixel/tile ratio
(`Int.fdiv` is floor division), clamped into `[0, cols-1] × [0, rows-1]`. -/
def Document.pixelToCell (d : Document) (pixelX pixelY : Int) : Int × Int :=
  let col := Int.fdiv pixelX d.tileWidth
  let row := Int.fdiv pixelY d.tileHeight
  (max 0 (min (d.cols - 1) col), max 0 (min (d.rows - 1) row))

/-- A concrete 4×3-cell document with 2×2 tiles and empty layers (used to
evaluate the cursor/coordinate theorems). -/
def sampleDoc4x3 : Document :=
  ⟨4, 3, 2, 2, [], [], none⟩

/-- A concrete 2×1-cell document whose glyph layer holds a flipped glyph
under a text override at (0,0) and a bare glyph at (1,0). -/
def sampleDoc2x1 : Document :=
  ⟨2, 1, 2, 2, [[⟨"A", true, false⟩, ⟨"B", false, true⟩]], [((0, 0), ⟨"T"⟩)], none⟩

/-! ## GlyphProcessor (src/unnamed/part_001, class GlyphProcessor)

Event-machine embedding of the debounced conversion coordinator.

* `heap` models the mutable `ImageData` buffers by id; a buffer's contents
  are abstracted to a single `Nat` (the conversion result is a function of
  the contents, so recording which contents an execution read is enough
  for the scheduling claims).  `App.requestConversion` passes
  `this.document.pixelCanvas` — a reference to the live buffer, which
  in-place pixel edits (`setPixel`, `drawLine`, …, via
  `pixelCanvas.data`) mutate; `editPixel` models such an edit.
* `ascii` models `this.ascii !== null` (set by `initialize()`).
* `debounceTimer = some img` models a pending `setTimeout` whose closure
  captured the `ImageData` reference `img`; re-scheduling overwrites it
  (`clearTimeout` + new `setTimeout`).
* `pendingCallback` holds the callback id of the most recent request.
* `execLog` records each executed conversion as
  (image id, callback id, buffer contents read at execution time);
  appending an entry models `convertImageData` + invoking the callback.
* JS is single-threaded: a timer can only fire between event handlers, and
  the only code that can run while `executeConversion` is on the stack is
  whatever the callback itself invokes — passed as the `reentrant` list of
  (image id, callback id) requests made from inside the callback. -/

structure GPState where
  heap : List Nat
  ascii : Bool
  debounceTimer : Option Nat
  pendingCallback : Option Nat
  isProcessing : Bool
  execLog : List (Nat × Nat × Nat)
deriving DecidableEq, Repr

/-- `GlyphProcessor.requestConversion`: cancel any pending timer, remember
the callback, schedule a timer whose closure captures `pixelCanvas`. -/
def GPState.requestConversion (s : GPState) (img cb : Nat) : GPState :=
  { s with debounceTimer := some img, pendingCallback := some cb }

/-- `GlyphProcessor.executeConversion`: guarded by
`!this.ascii || this.isProcessing || !this.pendingCallback`; otherwise set
the in-progress flag, take and clear the pending callback, convert the
buffer as it reads now, run the callback (whose re-entrant
`requestConversion` calls are the `reentrant` list), and clear the flag in
`finally`. -/
def GPState.executeConversion (s : GPState) (img : Nat) (reentrant : List (Nat × Nat)) :
    GPState :=
  match s.pendingCallback with
  | none => s
  | some cb =>
    if s.ascii = false ∨ s.isProcessing then s
    else
      let content := s.heap.getD img 0
      let s1 : GPState :=
        { s with isProcessing := true, pendingCallback := none,
                 execLog := s.execLog ++ [(img, cb, content)] }
      let s2 := reentrant.foldl (fun t r => t.requestConversion r.1 r.2) s1
      { s2 with isProcessing := false }

/-- The debounce timer fires: `debounceTimer = null` then
`executeConversion(pixelCanvas)` with the captured reference. -/
def GPState.fireTimer (s : GPState) (reentrant : List (Nat × Nat)) : GPState :=
  match s.debounceTimer with
  | none => s
  | some img => GPState.executeConversion { s with debounceTimer := none } img reentrant

/-- An in-place pixel edit to buffer `img` (e.g. `setPixel` /
`drawLine` writing through `document.pixelCanvas.data`). -/
def GPState.editPixel (s : GPState) (img v : Nat) : GPState :=
  { s with heap := s.heap.set img v }

/-- A sequence of in-place pixel edits. -/
def GPState.applyEdits (s : GPState) (es : List (Nat × Nat)) : GPState :=
  es.foldl (fun t e => t.editPixel e.1 e.2) s

/-- A burst of debounced requests, each arriving before the previous timer
fires (so each one cancels and replaces the previous). -/
def GPState.requestAll (s : GPState) (rs : List (Nat × Nat)) : GPState :=
  rs.foldl (fun t r => t.requestConversion r.1 r.2) s

/-- `GlyphProcessor.convertImmediate`: `throw new Error('GlyphProcessor
not initialized')` when `this.ascii` is null, otherwise convert the buffer
as it reads now (the value the conversion operated on is returned). -/
def GPState.convertImmediate (s : GPState) (img : Nat) : Except String Nat :=
  if s.ascii = false then
    Except.error "GlyphProcessor not initialized"
  else
    Except.ok (s.heap.getD img 0)

/-! ## Raster primitives (src/unnamed/part_003, geometry utilities) -/

/-- One step of `bresenhamLine`'s loop body (after the yield): updates
`(x, y, err)`. -/
def bresenhamStep (dx dy sx sy : Int) (x y err : Int) : Int × Int × Int :=
  let e2 := 2 * err
  let (err1, x1) := if -dy < e2 then (err - dy, x + sx) else (err, x)
  let (err2, y1) := if e2 < dx then (err1 + dx, y + sy) else (err1, y)
  (x1, y1, err2)

/-- `bresenhamLine` loop, fuel-indexed.  The source's `while (true)` yields
the current point, stops after yielding the endpoint, else steps.  The
walk reaches `(x1, y1)` within `|x1-x0| + |y1-y0|` steps, so the fuel
given below never runs out. -/
def bresenhamLoop (dx dy sx sy x1 y1 : Int) :
    Nat → Int → Int → Int → List (Int × Int)
  | 0, _, _, _ => []
  | Nat.succ fuel, x, y, err =>
    if x = x1 ∧ y = y1 then
      [(x, y)]
    else
      let next := bresenhamStep dx dy sx sy x y err
      (x, y) :: bresenhamLoop dx dy sx sy x1 y1 fuel next.1 next.2.1 next.2.2

/-- `bresenhamLine(x0, y0, x1, y1)` as the list of yielded points. -/
def bresenhamLine (x0 y0 x1 y1 : Int) : List (Int × Int) :=
  let dx := |x1 - x0|
  let dy := |y1 - y0|
  let sx : Int := if x0 < x1 then 1 else -1
  let sy : Int := if y0 < y1 then 1 else -1
  bresenhamLoop dx dy sx sy x1 y1 (dx + dy + 1).toNat.succ x0 y0 (dx - dy)

/-- `yieldPoint` inside `ellipseOutline`: emit `p` unless it was already
emitted in this call (the `yielded` set and the emitted list hold the same
points, so the list alone carries both). -/
def yieldPoint (p : Int × Int) (out : List (Int × Int)) : List (Int × Int) :=
  if p ∈ out then out else out ++ [p]

/-- `plot4` inside `ellipseOutline`: emit the four reflections
`(cx+dx, cy+dy)`, `(cx-dx-1, cy+dy)`, `(cx+dx, cy-dy-1)`,
`(cx-dx-1, cy-dy-1)` in the source's order p1, p2, p3, p4 (each via
`Math.floor`, identity here since all arguments are integers). -/
def plot4 (cx cy dx dy : Int) (out : List (Int × Int)) : List (Int × Int) :=
  yieldPoint (cx - dx - 1, cy - dy - 1)
    (yieldPoint (cx + dx, cy - dy - 1)
      (yieldPoint (cx - dx - 1, cy + dy)
        (yieldPoint (cx + dx, cy + dy) out)))

/-- Region-1 loop of `ellipseOutline` (`while (ry²·dx < rx²·dy)`),
fuel-indexed; returns the final `(dx, dy, out)`.  The decision variable is
the source's float `d1` multiplied by 4, which is exact: `d1` is always an
integer multiple of 1/4.  Each iteration increments `dx`, and the loop
condition forces `dx < rx²` (since `dy ≤ ry`), so fuel `rx²·ry + 1 ≥
rx² + 1` suffices and the fuel-out branch is never taken by
`ellipseOutline` below. -/
def region1 (cx cy rx ry : Int) :
    Nat → Int → Int → Int → List (Int × Int) → Int × Int × List (Int × Int)
  | 0, dx, dy, _, out => (dx, dy, out)
  | Nat.succ fuel, dx, dy, d1, out =>
    if ry * ry * dx < rx * rx * dy then
      let out1 := plot4 cx cy dx dy out
      if d1 < 0 then
        region1 cx cy rx ry fuel (dx + 1) dy
          (d1 + 8 * ry * ry * (dx + 1) + 4 * ry * ry) out1
      else
        region1 cx cy rx ry fuel (dx + 1) (dy - 1)
          (d1 + 8 * ry * ry * (dx + 1) - 8 * rx * rx * (dy - 1) + 4 * ry * ry) out1
    else (dx, dy, out)

/-- Region-2 loop of `ellipseOutline` (`while (dy >= 0)`), fuel-indexed;
`d2` is the source's float decision variable multiplied by 4 (exact: `d2`
is always an integer multiple of 1/4).  Both branches decrement `dy`, so
fuel `dy + 1` runs the loop to completion. -/
def region2 (cx cy rx ry : Int) :
    Nat → Int → Int → Int → List (Int × Int) → List (Int × Int)
  | 0, _, _, _, out => out
  | Nat.succ fuel, dx, dy, d2, out =>
    if 0 ≤ dy then
      let out1 := plot4 cx cy dx dy out
      if 0 < d2 then
        region2 cx cy rx ry fuel dx (dy - 1)
          (d2 - 8 * rx * rx * (dy - 1) + 4 * rx * rx) out1
      else
        region2 cx cy rx ry fuel (dx + 1) (dy - 1)
          (d2 + 8 * ry * ry * (dx + 1) - 8 * rx * rx * (dy - 1) + 4 * rx * rx) out1
    else out

/-- The span of an axis after `ellipseOutline`'s snapping: the absolute
difference of the two bounds, incremented when odd (the source increments
the high bound, leaving the low bound fixed). -/
def snappedSpan (a b : Int) : Int :=
  let s := max a b - min a b
  if s % 2 = 1 then s + 1 else s

/-- The algorithm's centre coordinate on an axis: low bound plus half the
(even) snapped span. -/
def snappedCenter (a b : Int) : Int :=
  min a b + snappedSpan a b / 2

/-- `ellipseOutline(x0, y0, x1, y1)` as the list of yielded points:
normalize the box, snap odd spans outward on the high bound, handle the
degenerate point/line cases, then run the two midpoint-loop regions
starting from `(dx, dy) = (0, ry)` with `4·d1 = 4ry² - 4rx²ry + rx²` and
`4·d2 = ry²(2dx+1)² + 4rx²(dy-1)² - 4rx²ry²`. -/
def ellipseOutline (x0 y0 x1 y1 : Int) : List (Int × Int) :=
  let left := min x0 x1
  let top := min y0 y1
  let width := snappedSpan x0 x1
  let height := snappedSpan y0 y1
  if width = 0 then
    if height = 0 then
      [(left, top)]
    else
      (List.range (height.toNat + 1)).map (fun i => (left, top + (i : Int)))
  else if height = 0 then
    (List.range (width.toNat + 1)).map (fun i => (left + (i : Int), top))
  else
    let cx := left + width / 2
    let cy := top + height / 2
    let rx := width / 2
    let ry := height / 2
    let r1 := region1 cx cy rx ry (rx * rx * ry).toNat.succ 0 ry
      (4 * ry * ry - 4 * rx * rx * ry + rx * rx) []
    region2 cx cy rx ry r1.2.1.toNat.succ r1.1 r1.2.1
      (ry * ry * (2 * r1.1 + 1) * (2 * r1.1 + 1)
        + 4 * rx * rx * (r1.2.1 - 1) * (r1.2.1 - 1) - 4 * rx * rx * ry * ry)
      r1.2.2

/-- The point set is closed under horizontal reflection through the
vertical axis `x = c - 1/2` (i.e. `x ↦ 2c - 1 - x`). -/
def SymX (c : Int) (l : List (Int × Int)) : Prop :=
  ∀ p ∈ l, (2 * c - 1 - p.1, p.2) ∈ l

/-- The point set is closed under vertical reflection through the
horizontal axis `y = c - 1/2` (i.e. `y ↦ 2c - 1 - y`). -/
def SymY (c : Int) (l : List (Int × Int)) : Prop :=
  ∀ p ∈ l, (p.1, 2 * c - 1 - p.2) ∈ l

/-! ## PencilTool (src/src/ui/SettingsPanel.ts, class PencilTool)

State machine of the freehand paint tool.  The pixel-plane writes go
through `callbacks.getPixelCanvas`/`setPixelCanvas` and never touch the
undo engine; the only push site is `callbacks.pushUndo`
(= `App.pushUndoState`, one `UndoBuffer.push`).  Each handler therefore
returns the new tool state together with the number of `pushUndo` calls it
made.  Cursor updates (`callbacks.setCursor`) mutate the Document, not the
tool, and push nothing. -/

structure PencilState where
  isDrawing : Bool
  hasDrawn : Bool
  lastX : Int
  lastY : Int
  drawnPixels : List (Int × Int)
deriving DecidableEq, Repr

/-- Field initializers of `PencilTool`. -/
def PencilState.init : PencilState :=
  ⟨false, false, 0, 0, []⟩

/-- `PencilTool.onMouseDown`: start drawing, paint the initial pixel,
record it, mark `hasDrawn`; no undo push. -/
def PencilState.onMouseDown (_s : PencilState) (px py : Int) : PencilState × Nat :=
  (⟨true, true, px, py, [(px, py)]⟩, 0)

/-- `PencilTool.onMouseMove`: cursor update only when not drawing;
otherwise paint the Bresenham segment from the last position, record its
pixels, advance the last position, mark `hasDrawn`; no undo push. -/
def PencilState.onMouseMove (s : PencilState) (px py : Int) : PencilState × Nat :=
  if s.isDrawing then
    (⟨true, true, px, py, s.drawnPixels ++ bresenhamLine s.lastX s.lastY px py⟩, 0)
  else
    (s, 0)

/-- `PencilTool.onMouseUp`: if a drawing gesture actually drew, clear the
text cells under the drawn pixels and push exactly one undo checkpoint;
then reset the gesture state. -/
def PencilState.onMouseUp (s : PencilState) : PencilState × Nat :=
  let pushes := if s.isDrawing ∧ s.hasDrawn then 1 else 0
  (⟨false, false, s.lastX, s.lastY, []⟩, pushes)

/-- A full gesture: pointer-down at `start`, the given pointer-moves, then
pointer-up; returns the final tool state and the total number of undo
pushes. -/
def PencilState.runGesture (start : Int × Int) (moves : List (Int × Int)) :
    PencilState × Nat :=
  let step2 := moves.foldl
    (fun (acc : PencilState × Nat) e =>
      ((acc.1.onMouseMove e.1 e.2).1, acc.2 + (acc.1.onMouseMove e.1 e.2).2))
    (PencilState.init.onMouseDown start.1 start.2)
  (step2.1.onMouseUp.1, step2.2 + step2.1.onMouseUp.2)

/-! ## Theorems -/

/-! ### UndoBuffer -/

/-- Shape of `push` when the cursor already sits at the top of the stack
(so the redo-branch slice is a no-op). -/
theorem UndoBuffer.push_top {α : Type} (b : UndoBuffer α) (x : α)
    (h : b.index = (b.stack.length : Int) - 1) :
    b.push x = if b.maxSize < b.stack.length + 1
      then ⟨(b.stack ++ [x]).drop 1, (b.stack.length : Int) - 1, b.maxSize⟩
      else ⟨b.stack ++ [x], (b.stack.length : Int), b.maxSize⟩ := by
  have h1 : ¬ (b.index < (b.stack.length : Int) - 1) := by omega
  simp only [UndoBuffer.push, h1, if_false, gt_iff_lt, List.length_append,
    List.length_cons, List.length_nil, Nat.zero_add, Nat.add_zero]
  by_cases hC : b.maxSize < b.stack.length + 1
  · rw [if_pos hC, if_pos hC]
    congr 1
    push_cast
    omega
  · rw [if_neg hC, if_neg hC]
    congr 1
    push_cast
    omega

/-- Closed form of pushing a whole list into a fresh buffer: the stack
keeps the `maxSize` most recent entries, the cursor sits at the top. -/
theorem UndoBuffer.pushAll_empty {α : Type} (N : Nat) (xs : List α) :
    (UndoBuffer.empty α N).pushAll xs =
      ⟨xs.drop (xs.length - N), ((min xs.length N : Nat) : Int) - 1, N⟩ := by
  induction xs using List.reverseRecOn with
  | nil =>
    simp [UndoBuffer.pushAll, UndoBuffer.empty]
  | append_singleton ys y ih =>
    simp only [UndoBuffer.pushAll] at ih ⊢
    rw [List.foldl_append, List.foldl_cons, List.foldl_nil, ih]
    have hlen : (ys.drop (ys.length - N)).length = min ys.length N := by
      simp [List.length_drop]
      omega
    rw [UndoBuffer.push_top _ y (by simp [hlen])]
    dsimp only
    rw [hlen]
    have hlapp : (ys ++ [y]).length = ys.length + 1 := by simp
    by_cases hc : ys.length < N
    · rw [if_neg (by omega)]
      have hstack : ys.drop (ys.length - N) ++ [y] =
          (ys ++ [y]).drop ((ys ++ [y]).length - N) := by
        rw [hlapp]
        have h0 : ys.length - N = 0 := by omega
        have h1 : ys.length + 1 - N = 0 := by omega
        rw [h0, h1, List.drop_zero, List.drop_zero]
      have hindex : ((min ys.length N : Nat) : Int) =
          ((min (ys ++ [y]).length N : Nat) : Int) - 1 := by
        rw [hlapp]
        push_cast
        omega
      rw [hstack, hindex]
    · rw [if_pos (by omega)]
      have hstack : (ys.drop (ys.length - N) ++ [y]).drop 1 =
          (ys ++ [y]).drop ((ys ++ [y]).length - N) := by
        rw [hlapp]
        by_cases hN : N = 0
        · subst hN
          rw [Nat.sub_zero, Nat.sub_zero, List.drop_length]
          have hr : (ys ++ [y]).drop (ys.length + 1) = [] :=
            List.drop_eq_nil_of_le (by simp)
          rw [hr]
          simp
        · have hS : 1 ≤ (ys.drop (ys.length - N)).length := by
            rw [hlen]
            omega
          rw [List.drop_append_of_le_length hS,
            List.drop_append_of_le_length (show ys.length + 1 - N ≤ ys.length by omega),
            List.drop_drop]
          have harith : ys.length - N + 1 = ys.length + 1 - N := by omega
          rw [harith]
      have hindex : ((min ys.length N : Nat) : Int) - 1 =
          ((min (ys ++ [y]).length N : Nat) : Int) - 1 := by
        rw [hlapp]
        push_cast
        omega
      rw [hstack, hindex]

/-- C7 (confirmed): in a fresh `UndoBuffer` (the App constructs it with
capacity 50), the sequence `push(A); push(B); undo(); push(C); redo()`
returns nothing from the final `redo` and leaves the buffer — cursor
included — unchanged: `push(C)` discarded the redo branch holding `B`. -/
theorem undo_branch_discard {α : Type} (a b c : α) :
    ((((UndoBuffer.empty α 50).push a).push b).undo.2.push c).redo =
      (none, ((((UndoBuffer.empty α 50).push a).push b).undo.2.push c)) := by
  simp [UndoBuffer.empty, UndoBuffer.push, UndoBuffer.undo, UndoBuffer.redo]

/-- C8 (confirmed): pushing `N + 5` states onto an initially empty
capacity-`N` buffer leaves exactly the `N` most recently pushed states in
push order, with the cursor at the latest one. -/
theorem undo_capacity {α : Type} (N : Nat) (xs : List α) (h : xs.length = N + 5) :
    ((UndoBuffer.empty α N).pushAll xs).stack = xs.drop 5 ∧
    ((UndoBuffer.empty α N).pushAll xs).stack.length = N ∧
    ((UndoBuffer.empty α N).pushAll xs).index =
      (((UndoBuffer.empty α N).pushAll xs).stack.length : Int) - 1 := by
  rw [UndoBuffer.pushAll_empty]
  have h5 : xs.length - N = 5 := by omega
  have hmin : min xs.length N = N := by omega
  refine ⟨by rw [h5], ?_, ?_⟩
  · simp [List.length_drop]
    omega
  · simp [List.length_drop, hmin]
    omega

/-- Witness for C8 at `N = 2` with seven pushes. -/
theorem undo_capacity_witness :
    ([0, 1, 2, 3, 4, 5, 6] : List Nat).length = 2 + 5 ∧
    (((UndoBuffer.empty Nat 2).pushAll [0, 1, 2, 3, 4, 5, 6]).stack =
        ([0, 1, 2, 3, 4, 5, 6] : List Nat).drop 5 ∧
      ((UndoBuffer.empty Nat 2).pushAll [0, 1, 2, 3, 4, 5, 6]).stack.length = 2 ∧
      ((UndoBuffer.empty Nat 2).pushAll [0, 1, 2, 3, 4, 5, 6]).index =
        (((UndoBuffer.empty Nat 2).pushAll [0, 1, 2, 3, 4, 5, 6]).stack.length : Int) - 1) :=
  ⟨by decide, undo_capacity 2 [0, 1, 2, 3, 4, 5, 6] (by decide)⟩

/-! ### Document -/

/-- C4 counterexample: on a 4×3-cell document with no cursor, the claim
predicts that `setCursor(10, 0)` clamps to the nearest in-bounds cell
`(3, 0)`; the code instead skips the assignment, leaving the cursor
unset. -/
theorem setCursor_no_clamp_cex :
    (sampleDoc4x3.setCursor 10 0 false).cursor = none ∧
    (sampleDoc4x3.setCursor 10 0 false).cursor ≠ some (3, 0, false) := by
  decide

/-- C4 (corrected): `pixelToCell` clamps any pixel coordinates into valid
cell bounds and `setCursor` never fails, but `setCursor` with out-of-range
`(col, row)` is a silent no-op that leaves the cursor (and the whole
document) unchanged, rather than clamping to the nearest in-bounds
cell. -/
theorem coordinate_bounds_behavior (d : Document) (col row px py : Int) (b : Bool)
    (hc : 0 < d.cols) (hr : 0 < d.rows) :
    ((0 ≤ col ∧ col < d.cols ∧ 0 ≤ row ∧ row < d.rows →
        (d.setCursor col row b).cursor = some (col, row, b)) ∧
      (¬(0 ≤ col ∧ col < d.cols ∧ 0 ≤ row ∧ row < d.rows) →
        d.setCursor col row b = d)) ∧
    (0 ≤ (d.pixelToCell px py).1 ∧ (d.pixelToCell px py).1 < d.cols ∧
      0 ≤ (d.pixelToCell px py).2 ∧ (d.pixelToCell px py).2 < d.rows) := by
  refine ⟨⟨fun h => ?_, fun h => ?_⟩, ?_⟩
  · rw [Document.setCursor, if_pos h]
  · rw [Document.setCursor, if_neg h]
  · simp only [Document.pixelToCell]
    omega

/-- Witness for C4 (corrected) on `sampleDoc4x3`, cursor coordinates
(2,1), pixel coordinates (100,-7). -/
theorem coordinate_bounds_behavior_witness :
    (0 : Int) < sampleDoc4x3.cols ∧ (0 : Int) < sampleDoc4x3.rows ∧
    (((0 ≤ (2 : Int) ∧ (2 : Int) < sampleDoc4x3.cols ∧
          0 ≤ (1 : Int) ∧ (1 : Int) < sampleDoc4x3.rows →
        (sampleDoc4x3.setCursor 2 1 true).cursor = some (2, 1, true)) ∧
      (¬(0 ≤ (2 : Int) ∧ (2 : Int) < sampleDoc4x3.cols ∧
          0 ≤ (1 : Int) ∧ (1 : Int) < sampleDoc4x3.rows) →
        sampleDoc4x3.setCursor 2 1 true = sampleDoc4x3)) ∧
    (0 ≤ (sampleDoc4x3.pixelToCell 100 (-7)).1 ∧
      (sampleDoc4x3.pixelToCell 100 (-7)).1 < sampleDoc4x3.cols ∧
      0 ≤ (sampleDoc4x3.pixelToCell 100 (-7)).2 ∧
      (sampleDoc4x3.pixelToCell 100 (-7)).2 < sampleDoc4x3.rows)) :=
  ⟨by decide, by decide,
    coordinate_bounds_behavior sampleDoc4x3 2 1 100 (-7) true (by decide) (by decide)⟩

/-- C10 (confirmed): at any in-bounds cell, `getFinalChar` returns the
TextCell's character with both flips cleared whenever a TextCell exists
there — whatever the glyph layer holds — else the GlyphCell's character
with that glyph's flip flags, else a blank space with no flips. -/
theorem getFinalChar_priority (d : Document) (col row : Int)
    (hc : 0 ≤ col ∧ col < d.cols) (hr : 0 ≤ row ∧ row < d.rows) :
    (∀ t, d.textLayer.lookup (col, row) = some t →
        d.getFinalChar col row = ⟨t.char, false, false, true⟩) ∧
    (d.textLayer.lookup (col, row) = none →
      (∀ g, (d.glyphLayer.get? row.toNat).bind (fun r => r.get? col.toNat) = some g →
          d.getFinalChar col row = ⟨g.char, g.flipX, g.flipY, false⟩) ∧
      ((d.glyphLayer.get? row.toNat).bind (fun r => r.get? col.toNat) = none →
          d.getFinalChar col row = ⟨" ", false, false, false⟩)) := by
  have hbounds : ¬(row < 0 ∨ d.rows ≤ row ∨ col < 0 ∨ d.cols ≤ col) := by omega
  refine ⟨fun t ht => ?_, fun hnone => ⟨fun g hg => ?_, fun hg => ?_⟩⟩
  · rw [Document.getFinalChar, Document.getTextCell, ht]
  · rw [Document.getFinalChar, Document.getTextCell, hnone,
      Document.getGlyph, if_neg hbounds, hg]
  · rw [Document.getFinalChar, Document.getTextCell, hnone,
      Document.getGlyph, if_neg hbounds, hg]

/-- Witness for C10 at cell (0,0) of `sampleDoc2x1`. -/
theorem getFinalChar_priority_witness :
    (0 ≤ (0 : Int) ∧ (0 : Int) < sampleDoc2x1.cols) ∧
    (0 ≤ (0 : Int) ∧ (0 : Int) < sampleDoc2x1.rows) ∧
    ((∀ t, sampleDoc2x1.textLayer.lookup ((0 : Int), (0 : Int)) = some t →
        sampleDoc2x1.getFinalChar 0 0 = ⟨t.char, false, false, true⟩) ∧
      (sampleDoc2x1.textLayer.lookup ((0 : Int), (0 : Int)) = none →
        (∀ g, (sampleDoc2x1.glyphLayer.get? (0 : Int).toNat).bind
              (fun r => r.get? (0 : Int).toNat) = some g →
            sampleDoc2x1.getFinalChar 0 0 = ⟨g.char, g.flipX, g.flipY, false⟩) ∧
        ((sampleDoc2x1.glyphLayer.get? (0 : Int).toNat).bind
              (fun r => r.get? (0 : Int).toNat) = none →
            sampleDoc2x1.getFinalChar 0 0 = ⟨" ", false, false, false⟩))) :=
  ⟨by decide, by decide,
    getFinalChar_priority sampleDoc2x1 0 0 (by decide) (by decide)⟩

/-! ### GlyphProcessor -/

/-- `applyEdits` only mutates the heap: every other field survives. -/
theorem GPState.applyEdits_fields (s : GPState) (es : List (Nat × Nat)) :
    (s.applyEdits es).ascii = s.ascii ∧
    (s.applyEdits es).debounceTimer = s.debounceTimer ∧
    (s.applyEdits es).pendingCallback = s.pendingCallback ∧
    (s.applyEdits es).isProcessing = s.isProcessing ∧
    (s.applyEdits es).execLog = s.execLog := by
  induction es generalizing s with
  | nil => exact ⟨rfl, rfl, rfl, rfl, rfl⟩
  | cons e es ih =>
    rw [GPState.applyEdits, List.foldl_cons, ← GPState.applyEdits]
    exact ih (s.editPixel e.1 e.2)

/-- A burst of requests collapses to its last one: the timer and pending
callback of every earlier request are overwritten. -/
theorem GPState.requestAll_getLast (s : GPState) (rs : List (Nat × Nat))
    (img cb : Nat) (h : rs.getLast? = some (img, cb)) :
    s.requestAll rs = { s with debounceTimer := some img, pendingCallback := some cb } := by
  induction rs generalizing s with
  | nil => simp at h
  | cons r rest ih =>
    rw [GPState.requestAll, List.foldl_cons, ← GPState.requestAll]
    cases rest with
    | nil =>
      simp only [List.getLast?_singleton, Option.some.injEq] at h
      subst h
      rfl
    | cons r2 rest2 =>
      have h2 : (r2 :: rest2).getLast? = some (img, cb) := by
        rwa [List.getLast?_cons_cons] at h
      rw [ih (s.requestConversion r.1 r.2) h2]
      rfl

/-- Firing the timer on a quiescent, initialized state with a pending
request executes that request once. -/
theorem GPState.fireTimer_exec (s : GPState) (img cb : Nat)
    (ha : s.ascii = true) (hp : s.isProcessing = false)
    (ht : s.debounceTimer = some img) (hpc : s.pendingCallback = some cb) :
    s.fireTimer [] =
      { s with debounceTimer := none, pendingCallback := none,
               execLog := s.execLog ++ [(img, cb, s.heap.getD img 0)] } := by
  obtain ⟨hh, a, t, p, ip, lg⟩ := s
  dsimp only at ha hp ht hpc
  subst ha hp ht hpc
  rfl

/-- C1 counterexample: schedule a conversion of buffer 0 while it holds 5,
edit the buffer in place to 9 before the timer fires; the fired conversion
reads 9, not the schedule-time 5 — the debounced entry point captures a
reference to the live pixel plane, not a snapshot. -/
theorem requestConversion_snapshot_cex :
    (GPState.fireTimer
        (GPState.editPixel
          (GPState.requestConversion (GPState.mk [5] true none none false []) 0 7) 0 9)
        []).execLog = [(0, 7, 9)] ∧
    (GPState.mk [5] true none none false []).heap.getD 0 0 = 5 ∧
    ((0, 7, 9) : Nat × Nat × Nat) ≠ (0, 7, 5) := by
  decide

/-- C1 (corrected): a conversion fired from the debounced entry point
operates on the pixel-plane contents as they are when the timer fires:
the scheduling call captures a reference to the live buffer, so in-place
pixel edits made between scheduling and expiry are visible to the
in-flight conversion (when no such edit intervenes, this coincides with
the schedule-time contents). -/
theorem requestConversion_fireTime_contents (s : GPState) (img cb : Nat)
    (es : List (Nat × Nat)) (ha : s.ascii = true) (hp : s.isProcessing = false) :
    (((s.requestConversion img cb).applyEdits es).fireTimer []).execLog =
      s.execLog ++
        [(img, cb, ((s.requestConversion img cb).applyEdits es).heap.getD img 0)] := by
  obtain ⟨hfa, hft, hfp, hfi, hfl⟩ :=
    GPState.applyEdits_fields (s.requestConversion img cb) es
  rw [GPState.fireTimer_exec _ img cb (by rw [hfa]; exact ha) (by rw [hfi]; exact hp)
    (by rw [hft]; rfl) (by rw [hfp]; rfl)]
  dsimp only
  rw [hfl]
  rfl

/-- Witness for C1 (corrected): schedule on contents 5, edit to 9, fire. -/
theorem requestConversion_fireTime_contents_witness :
    (GPState.mk [5] true none none false []).ascii = true ∧
    (GPState.mk [5] true none none false []).isProcessing = false ∧
    ((((GPState.mk [5] true none none false []).requestConversion 0 7).applyEdits
        [(0, 9)]).fireTimer []).execLog =
      (GPState.mk [5] true none none false []).execLog ++
        [(0, 7, (((GPState.mk [5] true none none false []).requestConversion 0 7).applyEdits
            [(0, 9)]).heap.getD 0 0)] :=
  ⟨rfl, rfl,
    requestConversion_fireTime_contents (GPState.mk [5] true none none false [])
      0 7 [(0, 9)] rfl rfl⟩

/-- C2 (confirmed): K ≥ 1 debounced requests, each arriving before the
previous timer fires, execute exactly one conversion when the surviving
timer fires — with the buffer and callback of the Kth (last) request; the
K-1 superseded requests never execute, the callback fires exactly once,
and a further timer event executes nothing more. -/
theorem debounce_coalescing (s : GPState) (rs : List (Nat × Nat)) (img cb : Nat)
    (ha : s.ascii = true) (hp : s.isProcessing = false)
    (h : rs.getLast? = some (img, cb)) :
    ((s.requestAll rs).fireTimer []).execLog =
      s.execLog ++ [(img, cb, s.heap.getD img 0)] ∧
    ((s.requestAll rs).fireTimer []).debounceTimer = none ∧
    ((s.requestAll rs).fireTimer []).pendingCallback = none ∧
    (((s.requestAll rs).fireTimer []).fireTimer []).execLog =
      s.execLog ++ [(img, cb, s.heap.getD img 0)] := by
  rw [GPState.requestAll_getLast s rs img cb h]
  rw [GPState.fireTimer_exec
    { s with debounceTimer := some img, pendingCallback := some cb } img cb ha hp rfl rfl]
  exact ⟨rfl, rfl, rfl, rfl⟩

/-- Witness for C2: three rapid requests on buffers 0, 1, 0 against a
two-buffer heap; only the third (buffer 0, callback 9) executes. -/
theorem debounce_coalescing_witness :
    (GPState.mk [5, 6] true none none false []).ascii = true ∧
    (GPState.mk [5, 6] true none none false []).isProcessing = false ∧
    ([(0, 7), (1, 8), (0, 9)] : List (Nat × Nat)).getLast? = some (0, 9) ∧
    ((((GPState.mk [5, 6] true none none false []).requestAll
        [(0, 7), (1, 8), (0, 9)]).fireTimer []).execLog =
      (GPState.mk [5, 6] true none none false []).execLog ++
        [(0, 9, (GPState.mk [5, 6] true none none false []).heap.getD 0 0)] ∧
    (((GPState.mk [5, 6] true none none false []).requestAll
        [(0, 7), (1, 8), (0, 9)]).fireTimer []).debounceTimer = none ∧
    (((GPState.mk [5, 6] true none none false []).requestAll
        [(0, 7), (1, 8), (0, 9)]).fireTimer []).pendingCallback = none ∧
    ((((GPState.mk [5, 6] true none none false []).requestAll
        [(0, 7), (1, 8), (0, 9)]).fireTimer []).fireTimer []).execLog =
      (GPState.mk [5, 6] true none none false []).execLog ++
        [(0, 9, (GPState.mk [5, 6] true none none false []).heap.getD 0 0)]) :=
  ⟨rfl, rfl, by decide,
    debounce_coalescing (GPState.mk [5, 6] true none none false [])
      [(0, 7), (1, 8), (0, 9)] 0 9 rfl rfl (by decide)⟩

/-- C3 (confirmed): when a request arrives while a conversion is executing
(modelled as a re-entrant `requestConversion` from inside the running
callback — the only way code can run during the synchronous execution),
no second conversion starts during that execution (exactly one log entry
is produced), the arriving request replaces the pending one, and it is
executed by the next timer firing, after the current invocation has
finished. -/
theorem singleflight_replace_pending (s : GPState) (img cb rimg rcb : Nat)
    (ha : s.ascii = true) (hp : s.isProcessing = false)
    (ht : s.debounceTimer = some img) (hpc : s.pendingCallback = some cb) :
    (s.fireTimer [(rimg, rcb)]).execLog =
      s.execLog ++ [(img, cb, s.heap.getD img 0)] ∧
    (s.fireTimer [(rimg, rcb)]).pendingCallback = some rcb ∧
    (s.fireTimer [(rimg, rcb)]).debounceTimer = some rimg ∧
    (s.fireTimer [(rimg, rcb)]).isProcessing = false ∧
    ((s.fireTimer [(rimg, rcb)]).fireTimer []).execLog =
      (s.fireTimer [(rimg, rcb)]).execLog ++ [(rimg, rcb, s.heap.getD rimg 0)] := by
  obtain ⟨hh, a, t, p, ip, lg⟩ := s
  dsimp only at ha hp ht hpc
  subst ha hp ht hpc
  exact ⟨rfl, rfl, rfl, rfl, rfl⟩

/-- Witness for C3: a scheduled conversion of buffer 0 (callback 7) whose
callback re-requests buffer 1 (callback 8). -/
theorem singleflight_replace_pending_witness :
    (GPState.mk [5, 6] true (some 0) (some 7) false []).ascii = true ∧
    (GPState.mk [5, 6] true (some 0) (some 7) false []).isProcessing = false ∧
    (GPState.mk [5, 6] true (some 0) (some 7) false []).debounceTimer = some 0 ∧
    (GPState.mk [5, 6] true (some 0) (some 7) false []).pendingCallback = some 7 ∧
    (((GPState.mk [5, 6] true (some 0) (some 7) false []).fireTimer [(1, 8)]).execLog =
      (GPState.mk [5, 6] true (some 0) (some 7) false []).execLog ++
        [(0, 7, (GPState.mk [5, 6] true (some 0) (some 7) false []).heap.getD 0 0)] ∧
    ((GPState.mk [5, 6] true (some 0) (some 7) false []).fireTimer
        [(1, 8)]).pendingCallback = some 8 ∧
    ((GPState.mk [5, 6] true (some 0) (some 7) false []).fireTimer
        [(1, 8)]).debounceTimer = some 1 ∧
    ((GPState.mk [5, 6] true (some 0) (some 7) false []).fireTimer
        [(1, 8)]).isProcessing = false ∧
    (((GPState.mk [5, 6] true (some 0) (some 7) false []).fireTimer
        [(1, 8)]).fireTimer []).execLog =
      ((GPState.mk [5, 6] true (some 0) (some 7) false []).fireTimer [(1, 8)]).execLog ++
        [(1, 8, (GPState.mk [5, 6] true (some 0) (some 7) false []).heap.getD 1 0)]) :=
  ⟨rfl, rfl, rfl, rfl,
    singleflight_replace_pending (GPState.mk [5, 6] true (some 0) (some 7) false [])
      0 7 1 8 rfl rfl rfl rfl⟩

/-- C5 counterexample: invoking the immediate entry point on an
uninitialized coordinator throws (`Error('GlyphProcessor not
initialized')`) instead of no-opping, contradicting the claim that the
initialization check makes both entry points non-throwing no-ops. -/
theorem convertImmediate_uninitialized_cex :
    (GPState.mk [5] false none none false []).convertImmediate 0 =
      Except.error "GlyphProcessor not initialized" := by
  rfl

/-- C5 (corrected): before initialization the debounced entry point is
harmless — the `executeConversion` guard makes the eventual timer firing
attempt no conversion, and nothing throws along that path — but the
immediate entry point throws an initialization Error rather than
no-opping. -/
theorem uninitialized_guard_behavior (s : GPState) (img cb : Nat)
    (re : List (Nat × Nat)) (ha : s.ascii = false) :
    (((s.requestConversion img cb).fireTimer re).execLog = s.execLog ∧
      ((s.requestConversion img cb).fireTimer re).isProcessing = s.isProcessing) ∧
    s.convertImmediate img = Except.error "GlyphProcessor not initialized" := by
  obtain ⟨hh, a, t, p, ip, lg⟩ := s
  dsimp only at ha
  subst ha
  exact ⟨⟨rfl, rfl⟩, rfl⟩

/-- Witness for C5 (corrected) on an uninitialized single-buffer state. -/
theorem uninitialized_guard_behavior_witness :
    (GPState.mk [5] false none none false []).ascii = false ∧
    (((((GPState.mk [5] false none none false []).requestConversion 0 7).fireTimer
          [(1, 8)]).execLog = (GPState.mk [5] false none none false []).execLog ∧
      ((((GPState.mk [5] false none none false []).requestConversion 0 7).fireTimer
          [(1, 8)])).isProcessing =
        (GPState.mk [5] false none none false []).isProcessing) ∧
    (GPState.mk [5] false none none false []).convertImmediate 0 =
      Except.error "GlyphProcessor not initialized") :=
  ⟨rfl,
    uninitialized_guard_behavior (GPState.mk [5] false none none false [])
      0 7 [(1, 8)] rfl⟩

/-! ### PencilTool -/

/-- Pointer-moves while a drawing gesture is active keep the gesture
active, keep `hasDrawn` set, and push no undo checkpoint. -/
theorem PencilState.moves_no_push (moves : List (Int × Int)) :
    ∀ (p : PencilState × Nat), p.1.isDrawing = true → p.1.hasDrawn = true →
      (moves.foldl
        (fun (acc : PencilState × Nat) e =>
          ((acc.1.onMouseMove e.1 e.2).1, acc.2 + (acc.1.onMouseMove e.1 e.2).2))
        p).1.isDrawing = true ∧
      (moves.foldl
        (fun (acc : PencilState × Nat) e =>
          ((acc.1.onMouseMove e.1 e.2).1, acc.2 + (acc.1.onMouseMove e.1 e.2).2))
        p).1.hasDrawn = true ∧
      (moves.foldl
        (fun (acc : PencilState × Nat) e =>
          ((acc.1.onMouseMove e.1 e.2).1, acc.2 + (acc.1.onMouseMove e.1 e.2).2))
        p).2 = p.2 := by
  induction moves with
  | nil => exact fun p hd hh => ⟨hd, hh, rfl⟩
  | cons m ms ih =>
    intro p hd hh
    rw [List.foldl_cons]
    have hmove : p.1.onMouseMove m.1 m.2 =
        (⟨true, true, m.1, m.2,
          p.1.drawnPixels ++ bresenhamLine p.1.lastX p.1.lastY m.1 m.2⟩, 0) := by
      rw [PencilState.onMouseMove, if_pos hd]
    obtain ⟨h1, h2, h3⟩ := ih
      ((p.1.onMouseMove m.1 m.2).1, p.2 + (p.1.onMouseMove m.1 m.2).2)
      (by rw [hmove]) (by rw [hmove])
    refine ⟨h1, h2, ?_⟩
    rw [h3]
    dsimp only
    rw [hmove]
    rfl

/-- C9 (confirmed): a FreehandPaint (PencilTool) gesture of one
pointer-down, any number of pointer-moves, and one pointer-up pushes
exactly one undo checkpoint, whatever the number of moves. -/
theorem pencil_one_checkpoint (start : Int × Int) (moves : List (Int × Int)) :
    (PencilState.runGesture start moves).2 = 1 := by
  rw [PencilState.runGesture]
  dsimp only
  obtain ⟨hd, hh, hn⟩ := PencilState.moves_no_push moves
    (PencilState.init.onMouseDown start.1 start.2) rfl rfl
  rw [PencilState.onMouseUp]
  dsimp only
  rw [hn, if_pos ⟨hd, hh⟩]
  rfl

/-! ### Ellipse outline -/

/-- Membership in the output of `yieldPoint`. -/
theorem mem_yieldPoint (p q : Int × Int) (out : List (Int × Int)) :
    q ∈ yieldPoint p out ↔ q ∈ out ∨ q = p := by
  rw [yieldPoint]
  split
  · rename_i hmem
    constructor
    · exact fun hq => Or.inl hq
    · rintro (hq | rfl)
      · exact hq
      · exact hmem
  · simp [List.mem_append]

/-- `yieldPoint` never introduces a duplicate. -/
theorem yieldPoint_nodup (p : Int × Int) (out : List (Int × Int)) (h : out.Nodup) :
    (yieldPoint p out).Nodup := by
  rw [yieldPoint]
  split
  · exact h
  · rename_i hnp
    simp [List.nodup_append, h, hnp]

/-- Membership in the output of `plot4`: the previous points plus the four
reflections of `(dx, dy)`. -/
theorem mem_plot4 (cx cy dx dy : Int) (q : Int × Int) (out : List (Int × Int)) :
    q ∈ plot4 cx cy dx dy out ↔
      q ∈ out ∨ q = (cx + dx, cy + dy) ∨ q = (cx - dx - 1, cy + dy) ∨
        q = (cx + dx, cy - dy - 1) ∨ q = (cx - dx - 1, cy - dy - 1) := by
  rw [plot4, mem_yieldPoint, mem_yieldPoint, mem_yieldPoint, mem_yieldPoint]
  tauto

/-- `plot4` preserves duplicate-freedom. -/
theorem plot4_nodup (cx cy dx dy : Int) (out : List (Int × Int)) (h : out.Nodup) :
    (plot4 cx cy dx dy out).Nodup := by
  rw [plot4]
  exact yieldPoint_nodup _ _
    (yieldPoint_nodup _ _ (yieldPoint_nodup _ _ (yieldPoint_nodup _ _ h)))

/-- `plot4` preserves closure under the horizontal reflection
`x ↦ 2·cx - 1 - x`: the four added points pair up under it. -/
theorem plot4_symX (cx cy dx dy : Int) (out : List (Int × Int)) (h : SymX cx out) :
    SymX cx (plot4 cx cy dx dy out) := by
  intro q hq
  rw [mem_plot4] at hq ⊢
  rcases hq with hq | hq | hq | hq | hq
  · exact Or.inl (h q hq)
  · subst hq
    exact Or.inr (Or.inr (Or.inl (by rw [Prod.mk.injEq]; exact ⟨by ring, rfl⟩)))
  · subst hq
    exact Or.inr (Or.inl (by rw [Prod.mk.injEq]; exact ⟨by ring, rfl⟩))
  · subst hq
    exact Or.inr (Or.inr (Or.inr (Or.inr (by rw [Prod.mk.injEq]; exact ⟨by ring, rfl⟩))))
  · subst hq
    exact Or.inr (Or.inr (Or.inr (Or.inl (by rw [Prod.mk.injEq]; exact ⟨by ring, rfl⟩))))

/-- `plot4` preserves closure under the vertical reflection
`y ↦ 2·cy - 1 - y`. -/
theorem plot4_symY (cx cy dx dy : Int) (out : List (Int × Int)) (h : SymY cy out) :
    SymY cy (plot4 cx cy dx dy out) := by
  intro q hq
  rw [mem_plot4] at hq ⊢
  rcases hq with hq | hq | hq | hq | hq
  · exact Or.inl (h q hq)
  · subst hq
    exact Or.inr (Or.inr (Or.inr (Or.inl (by rw [Prod.mk.injEq]; exact ⟨rfl, by ring⟩))))
  · subst hq
    exact Or.inr (Or.inr (Or.inr (Or.inr (by rw [Prod.mk.injEq]; exact ⟨rfl, by ring⟩))))
  · subst hq
    exact Or.inr (Or.inl (by rw [Prod.mk.injEq]; exact ⟨rfl, by ring⟩))
  · subst hq
    exact Or.inr (Or.inr (Or.inl (by rw [Prod.mk.injEq]; exact ⟨rfl, by ring⟩)))

/-- Region 1 preserves duplicate-freedom and both reflection closures,
whatever the fuel. -/
theorem region1_inv (cx cy rx ry : Int) (fuel : Nat) :
    ∀ (dx dy d1 : Int) (out : List (Int × Int)),
      out.Nodup → SymX cx out → SymY cy out →
      (region1 cx cy rx ry fuel dx dy d1 out).2.2.Nodup ∧
      SymX cx (region1 cx cy rx ry fuel dx dy d1 out).2.2 ∧
      SymY cy (region1 cx cy rx ry fuel dx dy d1 out).2.2 := by
  induction fuel with
  | zero => exact fun dx dy d1 out hn hsx hsy => ⟨hn, hsx, hsy⟩
  | succ fuel ih =>
    intro dx dy d1 out hn hsx hsy
    simp only [region1]
    split
    · split
      · exact ih _ _ _ _ (plot4_nodup _ _ _ _ _ hn)
          (plot4_symX _ _ _ _ _ hsx) (plot4_symY _ _ _ _ _ hsy)
      · exact ih _ _ _ _ (plot4_nodup _ _ _ _ _ hn)
          (plot4_symX _ _ _ _ _ hsx) (plot4_symY _ _ _ _ _ hsy)
    · exact ⟨hn, hsx, hsy⟩

/-- Region 2 preserves duplicate-freedom and both reflection closures,
whatever the fuel. -/
theorem region2_inv (cx cy rx ry : Int) (fuel : Nat) :
    ∀ (dx dy d2 : Int) (out : List (Int × Int)),
      out.Nodup → SymX cx out → SymY cy out →
      (region2 cx cy rx ry fuel dx dy d2 out).Nodup ∧
      SymX cx (region2 cx cy rx ry fuel dx dy d2 out) ∧
      SymY cy (region2 cx cy rx ry fuel dx dy d2 out) := by
  induction fuel with
  | zero => exact fun dx dy d2 out hn hsx hsy => ⟨hn, hsx, hsy⟩
  | succ fuel ih =>
    intro dx dy d2 out hn hsx hsy
    simp only [region2]
    split
    · split
      · exact ih _ _ _ _ (plot4_nodup _ _ _ _ _ hn)
          (plot4_symX _ _ _ _ _ hsx) (plot4_symY _ _ _ _ _ hsy)
      · exact ih _ _ _ _ (plot4_nodup _ _ _ _ _ hn)
          (plot4_symX _ _ _ _ _ hsx) (plot4_symY _ _ _ _ _ hsy)
    · exact ⟨hn, hsx, hsy⟩

/-- Distinct bounds give a positive snapped span. -/
theorem snappedSpan_pos (a b : Int) (h : a ≠ b) : 0 < snappedSpan a b := by
  rw [snappedSpan]
  split <;> omega

/-- C6 counterexample: for the box (0,0)-(2,2) both spans are already
even (no snapping) and the box's center is (1,1); the outline contains
(2,1) but not its horizontal reflection (0,1) through that center, so the
point set is not symmetric under reflection through the (possibly
snapped) box center. -/
theorem ellipse_center_sym_cex :
    snappedSpan 0 2 = 2 ∧ snappedCenter 0 2 = 1 ∧
    (2, 1) ∈ ellipseOutline 0 0 2 2 ∧ ((0, 1) : Int × Int) ∉ ellipseOutline 0 0 2 2 := by
  decide

/-- C6 (corrected): odd spans are snapped outward on the high bound as
claimed, and for every non-degenerate box the yielded point set has no
duplicates and is closed under reflection on both axes — but through the
point half a unit above-left of the snapped box's center (the axes
`x = snappedCenter - 1/2`, `y = snappedCenter - 1/2`, i.e.
`x ↦ 2·cx - 1 - x` and `y ↦ 2·cy - 1 - y`), not through the snapped
center itself. -/
theorem ellipseOutline_halfunit_symmetry (x0 y0 x1 y1 : Int)
    (hx : x0 ≠ x1) (hy : y0 ≠ y1) :
    (ellipseOutline x0 y0 x1 y1).Nodup ∧
    SymX (snappedCenter x0 x1) (ellipseOutline x0 y0 x1 y1) ∧
    SymY (snappedCenter y0 y1) (ellipseOutline x0 y0 x1 y1) := by
  have hw := snappedSpan_pos x0 x1 hx
  have hh := snappedSpan_pos y0 y1 hy
  rw [ellipseOutline]
  rw [if_neg (by omega), if_neg (by omega)]
  have hbase :
      ([] : List (Int × Int)).Nodup ∧
      SymX (snappedCenter x0 x1) ([] : List (Int × Int)) ∧
      SymY (snappedCenter y0 y1) ([] : List (Int × Int)) :=
    ⟨List.nodup_nil, fun p hp => absurd hp (List.not_mem_nil p),
      fun p hp => absurd hp (List.not_mem_nil p)⟩
  obtain ⟨h1, h2, h3⟩ := region1_inv (min x0 x1 + snappedSpan x0 x1 / 2)
    (min y0 y1 + snappedSpan y0 y1 / 2) (snappedSpan x0 x1 / 2) (snappedSpan y0 y1 / 2)
    (snappedSpan x0 x1 / 2 * (snappedSpan x0 x1 / 2) * (snappedSpan y0 y1 / 2)).toNat.succ
    0 (snappedSpan y0 y1 / 2)
    (4 * (snappedSpan y0 y1 / 2) * (snappedSpan y0 y1 / 2) -
      4 * (snappedSpan x0 x1 / 2) * (snappedSpan x0 x1 / 2) * (snappedSpan y0 y1 / 2) +
      snappedSpan x0 x1 / 2 * (snappedSpan x0 x1 / 2))
    [] hbase.1 hbase.2.1 hbase.2.2
  exact region2_inv _ _ _ _ _ _ _ _ _ h1 h2 h3

/-- Witness for C6 (corrected) on the box (0,0)-(5,4) of the spec's
example scenario 2 (odd width 5, snapped to 6). -/
theorem ellipseOutline_halfunit_symmetry_witness :
    (0 : Int) ≠ 5 ∧ (0 : Int) ≠ 4 ∧
    ((ellipseOutline 0 0 5 4).Nodup ∧
      SymX (snappedCenter 0 5) (ellipseOutline 0 0 5 4) ∧
      SymY (snappedCenter 0 4) (ellipseOutline 0 0 5 4)) :=
  ⟨by decide, by decide,
    ellipseOutline_halfunit_symmetry 0 0 5 4 (by decide) (by decide)⟩

end WebJave